import Mathlib

/-!
Verification of the braiins `wire`/`stratum` transport-layer slice:
the Fibonacci `DefaultBackoff`, the `Client` reconnection state machine
(`src/open/protocols/wire/src/client.rs`) and the Stratum V2 framing codec
(`src/open/protocols/stratum/src/v2/framing/codec.rs`).

Modelling conventions:
* `Duration` and `Instant` values are natural numbers (a fixed time unit;
  milliseconds for the default configuration `from_millis(100)` / `from_secs(5)`).
* The `u32` fields of the Rust code (`current`, `prev`, `retries`) are natural
  numbers reduced modulo `2 ^ 32` at each update, matching the wrapping
  semantics of release builds.
* Byte buffers are `List Nat`; the protocol message parser
  (`deserialize_message`) is an arbitrary function parameter.
-/

/-- `2 ^ 32`, the modulus of the Rust `u32` fields. -/
def U32MOD : Nat := 2 ^ 32

/-!  ## DefaultBackoff (client.rs lines 44-98) -/

/-- State of `DefaultBackoff`: two Fibonacci counters (`u32` in the source)
plus the configured `unit` and `max` durations. -/
structure DefaultBackoff where
  current : Nat
  prev : Nat
  unit : Nat
  max : Nat
deriving Repr, DecidableEq

/-- `DefaultBackoff::reset`: `current = 1`, `prev = 0`. -/
def DefaultBackoff.reset (b : DefaultBackoff) : DefaultBackoff :=
  { b with current := 1, prev := 0 }

/-- `DefaultBackoff::new(unit, max)`: zero counters, then `reset`. -/
def DefaultBackoff.new (unitD maxD : Nat) : DefaultBackoff :=
  DefaultBackoff.reset { current := 0, prev := 0, unit := unitD, max := maxD }

/-- `DefaultBackoff::next` (as `&mut self` it both returns a `Duration` and
updates the state; modelled as a pair).  `res = unit * current`; if
`res >= max` return `max` and leave the counters alone, otherwise return
`res` and advance the Fibonacci pair (`u32` addition wraps). -/
def DefaultBackoff.next (b : DefaultBackoff) : Nat × DefaultBackoff :=
  let res := b.unit * b.current
  if b.max ≤ res then
    (b.max, b)
  else
    (res, { b with current := (b.current + b.prev) % U32MOD, prev := b.current })

/-- `DefaultBackoff::default()`: `new(Duration::from_millis(100), Duration::from_secs(5))`,
in milliseconds. -/
def DefaultBackoff.defaultCfg : DefaultBackoff := DefaultBackoff.new 100 5000

/-- The state after `n` calls of `next()`. -/
def DefaultBackoff.stateAfter (b : DefaultBackoff) : Nat → DefaultBackoff
  | 0 => b
  | n + 1 => (b.stateAfter n).next.2

/-- The value returned by the `(n+1)`-th call of `next()` (0-indexed). -/
def DefaultBackoff.output (b : DefaultBackoff) (n : Nat) : Nat :=
  (b.stateAfter n).next.1

/-- The list of the first `n` outputs of `next()`. -/
def DefaultBackoff.outputs (b : DefaultBackoff) (n : Nat) : List Nat :=
  (List.range n).map b.output

/-!  ## V2 framing codec (codec.rs)

`V2Codec::decode` delegates to a `LengthDelimitedCodec` built with
`little_endian`, `length_field_offset(1)`, `length_field_length(3)`,
`num_skip(0)` and `length_adjustment(Header::SIZE)`, then feeds the complete
frame to `deserialize_message`. -/

/-- The value of the 3-byte little-endian length field at byte offset 1. -/
def v2LengthField (buf : List Nat) : Nat :=
  buf.getD 1 0 + 256 * buf.getD 2 0 + 65536 * buf.getD 3 0

/-- Modelled from the spec: `Header::SIZE` (the constant `H`) and the decode
loop of the underlying length-delimited codec are not under `src/`; this
follows spec section 4.5 — fewer than `H` buffered bytes: need more data;
fewer than `H + L` buffered bytes (`L` the length field): need more data;
otherwise consume exactly `H + L` bytes and return the parser's result on
them — matching the builder configuration in `V2Codec::default` (offset 1,
3-byte little-endian field, `num_skip(0)`, adjustment `H`).
Returns the decode result together with the remaining buffer. -/
def v2Decode {ε μ : Type} (H : Nat) (parse : List Nat → Except ε μ)
    (buf : List Nat) : Except ε (Option μ) × List Nat :=
  if buf.length < H then (Except.ok none, buf)
  else if buf.length < H + v2LengthField buf then (Except.ok none, buf)
  else ((parse (buf.take (H + v2LengthField buf))).map some,
        buf.drop (H + v2LengthField buf))

/-- `V2Codec::encode`: `dst.extend_from_slice(&item); Ok(())`. -/
def v2Encode {ε : Type} (item dst : List Nat) : Except ε Unit × List Nat :=
  (Except.ok (), dst ++ item)

/-!  ## Client (client.rs lines 100-202) -/

/-- A `Box<dyn Backoff>`: the two trait operations over an abstract state
type `σ` (`next` is `&mut self`, modelled as returning the new state). -/
structure BackoffOps (σ : Type) where
  next : σ → Nat × σ
  reset : σ → σ

/-- The backoff state after `n` calls of `next()`. -/
def BackoffOps.stateAfter {σ : Type} (ops : BackoffOps σ) (b : σ) : Nat → σ
  | 0 => b
  | n + 1 => (ops.next (ops.stateAfter b n)).2

/-- The value returned by the `(n+1)`-th `next()` call (0-indexed). -/
def BackoffOps.output {σ : Type} (ops : BackoffOps σ) (b : σ) (n : Nat) : Nat :=
  (ops.next (ops.stateAfter b n)).1

/-- `AttemptError<F>` (client.rs lines 104-117); `error` is the underlying
connect error of abstract type `ε`; instants and durations are `Nat`. -/
structure AttemptError (ε : Type) where
  next_attempt_in : Nat
  retries : Nat
  start_time : Nat
  error : ε
deriving Repr, DecidableEq

/-- The mutable fields of `Client<F>` (client.rs lines 130-146), over an
abstract backoff state `σ`.  The address and phantom marker carry no
behaviour relevant here and are omitted. -/
structure ClientState (σ : Type) where
  backoff : σ
  next_delay : Option (Nat × Nat)
  retries : Nat
  start_time : Option Nat
deriving Repr, DecidableEq

/-- The part of `Client::next` that runs before its only internal await
(the backoff sleep): `start_time.get_or_insert(now)` and
`next_delay.take()` followed by the remaining-delay computation.
Returns the state as it is at the suspension point together with
`some remaining` when the call actually suspends in `delay_for`. -/
def clientNextPhase1 {σ : Type} (now : Nat) (s : ClientState σ) :
    ClientState σ × Option Nat :=
  let st1 := some (s.start_time.getD now)
  match s.next_delay with
  | none => ({ s with start_time := st1 }, none)
  | some (whenT, delay) =>
      let since := now - whenT
      ({ s with start_time := st1, next_delay := none },
        if since < delay then some (delay - since) else none)

/-- The part of `Client::next` that runs once the connect outcome is known:
`outcome = none` is `Ok(conn)` (reset backoff, clear `retries` and
`start_time`), `outcome = some err` is `Err(err)` (advance the backoff,
store `(now, backoff)` in `next_delay`, bump `retries`, build the
`AttemptError` from `start_time.unwrap()`). -/
def clientNextPhase2 {σ ε : Type} (ops : BackoffOps σ) (now : Nat)
    (outcome : Option ε) (s : ClientState σ) :
    ClientState σ × Except (AttemptError ε) Unit :=
  match outcome with
  | none =>
      ({ s with backoff := ops.reset s.backoff, retries := 0, start_time := none },
        Except.ok ())
  | some err =>
      let p := ops.next s.backoff
      let retries1 := (s.retries + 1) % U32MOD
      ({ s with backoff := p.2, next_delay := some (now, p.1), retries := retries1 },
        Except.error ⟨p.1, retries1, s.start_time.getD 0, err⟩)

/-- One full (uncancelled) `Client::next` call: the pre-await phase followed
by the connect attempt's outcome. -/
def clientNext {σ ε : Type} (ops : BackoffOps σ) (now : Nat) (outcome : Option ε)
    (s : ClientState σ) : ClientState σ × Except (AttemptError ε) Unit :=
  clientNextPhase2 ops now outcome (clientNextPhase1 now s).1

/-- The Client state after `n` consecutive failed `next()` calls, the `k`-th
call made at instant `nows k` and failing with `errs k`. -/
def failStreakState {σ ε : Type} (ops : BackoffOps σ) (nows : Nat → Nat)
    (errs : Nat → ε) (s : ClientState σ) : Nat → ClientState σ
  | 0 => s
  | n + 1 =>
      (clientNext ops (nows n) (some (errs n)) (failStreakState ops nows errs s n)).1

/-- The result of the `(n+1)`-th failed call of such a streak (0-indexed). -/
def failStreakError {σ ε : Type} (ops : BackoffOps σ) (nows : Nat → Nat)
    (errs : Nat → ε) (s : ClientState σ) (n : Nat) : Except (AttemptError ε) Unit :=
  (clientNext ops (nows n) (some (errs n)) (failStreakState ops nows errs s n)).2

/-- The `retries` field of a decode result, when it is an error. -/
def retriesOf {ε : Type} : Except (AttemptError ε) Unit → Option Nat
  | Except.error e => some e.retries
  | Except.ok _ => none

/-- `BackoffOps` instance packaging `DefaultBackoff`. -/
def dOps : BackoffOps DefaultBackoff := ⟨DefaultBackoff.next, DefaultBackoff.reset⟩

/-- Concrete call instants for witnesses. -/
def nows0 : Nat → Nat := fun k => 10 * k

/-- Concrete connect errors for witnesses. -/
def errs0 : Nat → Nat := fun _ => 0

/-- A freshly constructed `Client` state (`Client::with_backoff`) over the
default backoff. -/
def cs0 : ClientState DefaultBackoff :=
  { backoff := DefaultBackoff.defaultCfg, next_delay := none, retries := 0,
    start_time := none }

/-- A configuration with `unit ≥ max`, for the C10 witness. -/
def c10b : DefaultBackoff := ⟨7, 3, 10, 4⟩

/-- A configuration (`unit = 1`, `max = 3·10⁹`) whose Fibonacci counter
wraps around `u32` before the cap is reached. -/
def c7Backoff : DefaultBackoff := DefaultBackoff.new 1 3000000000

/-- A Client state waiting out a pending delay:
one failure at instant 0 left `next_delay = some (0, 100)`. -/
def c3State : ClientState DefaultBackoff :=
  { backoff := DefaultBackoff.defaultCfg, next_delay := some (0, 100), retries := 1,
    start_time := some 0 }

/-- A concrete message parser for the codec witnesses: returns the length of
the frame it was handed. -/
def lenParse : List Nat → Except Nat Nat := fun l => Except.ok l.length

/-!  ## Helper lemmas about DefaultBackoff -/

theorem DefaultBackoff.next_snd_unit (b : DefaultBackoff) : b.next.2.unit = b.unit := by
  by_cases h : b.max ≤ b.unit * b.current <;> simp [DefaultBackoff.next, h]

theorem DefaultBackoff.next_snd_max (b : DefaultBackoff) : b.next.2.max = b.max := by
  by_cases h : b.max ≤ b.unit * b.current <;> simp [DefaultBackoff.next, h]

theorem DefaultBackoff.stateAfter_unit (b : DefaultBackoff) (n : Nat) :
    (b.stateAfter n).unit = b.unit := by
  induction n with
  | zero => rfl
  | succ n ih => rw [DefaultBackoff.stateAfter, DefaultBackoff.next_snd_unit, ih]

theorem DefaultBackoff.stateAfter_max (b : DefaultBackoff) (n : Nat) :
    (b.stateAfter n).max = b.max := by
  induction n with
  | zero => rfl
  | succ n ih => rw [DefaultBackoff.stateAfter, DefaultBackoff.next_snd_max, ih]

theorem DefaultBackoff.reset_next_fst (b : DefaultBackoff) :
    b.reset.next.1 = if b.max ≤ b.unit then b.max else b.unit := by
  by_cases h : b.max ≤ b.unit <;>
    simp [DefaultBackoff.reset, DefaultBackoff.next, h]

/-- After nine calls on the default configuration the state is frozen at
`(current, prev) = (55, 34)`. -/
theorem defaultCfg_frozen (k : Nat) :
    DefaultBackoff.defaultCfg.stateAfter (9 + k) = ⟨55, 34, 100, 5000⟩ := by
  induction k with
  | zero => decide
  | succ k ih =>
      have h9 : 9 + (k + 1) = (9 + k) + 1 := by omega
      rw [h9, DefaultBackoff.stateAfter, ih]
      decide

/-- From the tenth call on, the default configuration always returns 5000. -/
theorem defaultCfg_output_tail (k : Nat) :
    DefaultBackoff.defaultCfg.output (9 + k) = 5000 := by
  unfold DefaultBackoff.output
  rw [defaultCfg_frozen k]
  decide

/-!  ## Claims about DefaultBackoff -/

/-- Claim C2: with unit = 100 ms and max = 5000 ms (the `Default`
configuration), successive `next()` outputs after a reset are exactly
100, 100, 200, 300, 500, 800, 1300, 2100, 3400, 5000, 5000, 5000, ... ms;
each uncapped output is `unit` times the n-th Fibonacci number, and once an
uncapped value would meet or exceed `max`, every subsequent output is
exactly `max`. -/
theorem c2_default_backoff_sequence :
    DefaultBackoff.defaultCfg.outputs 12 =
        [100, 100, 200, 300, 500, 800, 1300, 2100, 3400, 5000, 5000, 5000] ∧
    (∀ n, n < 9 → DefaultBackoff.defaultCfg.output n = 100 * Nat.fib (n + 1)) ∧
    (∀ k, DefaultBackoff.defaultCfg.output (9 + k) = 5000) := by
  exact ⟨by decide, by decide, defaultCfg_output_tail⟩

/-- Witness for C2 at n = 5: the sixth output is `100 × fib 6 = 800`. -/
theorem c2_witness :
    5 < 9 ∧ DefaultBackoff.defaultCfg.output 5 = 100 * Nat.fib 6 :=
  ⟨by decide, c2_default_backoff_sequence.2.1 5 (by decide)⟩

/-- Claim C6: for every configuration `(unit, max)` and any number `n` of
prior `next()` calls, `reset()` followed by `next()` returns exactly the
same value as the first-ever `next()` on a freshly constructed instance
with the same `unit` and `max`. -/
theorem c6_reset_reproduces_first (unitD maxD n : Nat) :
    (((DefaultBackoff.new unitD maxD).stateAfter n).reset).next.1 =
      (DefaultBackoff.new unitD maxD).next.1 := by
  have h1 := DefaultBackoff.reset_next_fst ((DefaultBackoff.new unitD maxD).stateAfter n)
  have h2 := DefaultBackoff.reset_next_fst (DefaultBackoff.mk 0 0 unitD maxD)
  rw [DefaultBackoff.stateAfter_unit, DefaultBackoff.stateAfter_max] at h1
  rw [h1]
  exact h2.symm

/-- Claim C10: if `DefaultBackoff` is configured with `unit ≥ max`, every
`next()` call after a `reset()` (and construction is a `reset` of the
zeroed state) returns exactly `max` and the `(current, prev)` counters
never advance. -/
theorem c10_unit_ge_max (b : DefaultBackoff) (h : b.max ≤ b.unit) (n : Nat) :
    b.reset.stateAfter n = b.reset ∧ b.reset.output n = b.max := by
  have hnext : b.reset.next = (b.max, b.reset) := by
    simp [DefaultBackoff.reset, DefaultBackoff.next, h]
  have hstate : ∀ m, b.reset.stateAfter m = b.reset := by
    intro m
    induction m with
    | zero => rfl
    | succ m ih => rw [DefaultBackoff.stateAfter, ih, hnext]
  refine ⟨hstate n, ?_⟩
  unfold DefaultBackoff.output
  rw [hstate n, hnext]

/-- Witness for C10 at a concrete configuration with `max = 4 ≤ unit = 10`. -/
theorem c10_witness :
    c10b.max ≤ c10b.unit ∧
      (c10b.reset.stateAfter 5 = c10b.reset ∧ c10b.reset.output 5 = c10b.max) :=
  ⟨by decide, c10_unit_ge_max c10b (by decide) 5⟩

/-- The first value returned by `next()` never exceeds `max`. -/
theorem DefaultBackoff.next_fst_le_max (b : DefaultBackoff) : b.next.1 ≤ b.max := by
  by_cases h : b.max ≤ b.unit * b.current <;> simp [DefaultBackoff.next, h]
  omega

set_option maxRecDepth 4000 in
/-- Counterexample to C7: with `unit = 1` and `max = 3·10⁹`, the Fibonacci
counter wraps around `u32` after the 47th call and the 48th output
(512559680) is smaller than the 47th (2971215073); the output sequence of
`DefaultBackoff` is not monotonically non-decreasing for every
configuration. -/
theorem c7_counterexample : c7Backoff.output 47 < c7Backoff.output 46 := by decide

/-- Claim C7 (amended): for every `DefaultBackoff` state, every output is
bounded above by `max`; and an output never exceeds the following one
provided the `u32` Fibonacci counters do not wrap at that step —
a proviso that always holds for the default configuration, whose output
sequence is monotonically non-decreasing in full. -/
theorem c7_bounded_and_monotone (b : DefaultBackoff) (n : Nat) :
    b.output n ≤ b.max ∧
    ((b.stateAfter n).current + (b.stateAfter n).prev < U32MOD →
      b.output n ≤ b.output (n + 1)) ∧
    DefaultBackoff.defaultCfg.output n ≤ DefaultBackoff.defaultCfg.output (n + 1) := by
  refine ⟨?_, ?_, ?_⟩
  · have h := DefaultBackoff.next_fst_le_max (b.stateAfter n)
    rw [DefaultBackoff.stateAfter_max] at h
    exact h
  · intro hw
    show (b.stateAfter n).next.1 ≤ (b.stateAfter (n + 1)).next.1
    rw [DefaultBackoff.stateAfter]
    set s := b.stateAfter n with hs
    by_cases h : s.max ≤ s.unit * s.current
    · simp [DefaultBackoff.next, h]
    · have hm : (s.current + s.prev) % U32MOD = s.current + s.prev :=
        Nat.mod_eq_of_lt hw
      simp only [DefaultBackoff.next, h, if_neg, if_false]
      by_cases h2 : s.max ≤ s.unit * ((s.current + s.prev) % U32MOD)
      · simp only [h2, if_true, if_pos]
        omega
      · simp only [h2, if_false, if_neg]
        rw [hm]
        exact Nat.mul_le_mul_left s.unit (Nat.le_add_right _ _)
  · by_cases hn : n < 9
    · exact (show ∀ m, m < 9 →
        DefaultBackoff.defaultCfg.output m ≤ DefaultBackoff.defaultCfg.output (m + 1)
        by decide) n hn
    · obtain ⟨k, rfl⟩ : ∃ k, n = 9 + k := ⟨n - 9, by omega⟩
      have h2 : 9 + k + 1 = 9 + (k + 1) := by omega
      rw [defaultCfg_output_tail k, h2, defaultCfg_output_tail (k + 1)]

/-- Witness for C7 (amended) at the default configuration, n = 3: counters
5 + 3 do not wrap, and the fourth output 300 is at most the fifth, 500. -/
theorem c7_witness :
    (DefaultBackoff.defaultCfg.stateAfter 3).current
        + (DefaultBackoff.defaultCfg.stateAfter 3).prev < U32MOD ∧
      DefaultBackoff.defaultCfg.output 3 ≤ DefaultBackoff.defaultCfg.output 4 :=
  ⟨by decide, (c7_bounded_and_monotone DefaultBackoff.defaultCfg 3).2.1 (by decide)⟩

/-!  ## Helper lemmas about Client -/

/-- The state at (or just past) the suspension point: `start_time` is
populated with its old value (or `now` when absent) and `next_delay` has
been taken. -/
theorem clientNextPhase1_fst {σ : Type} (now : Nat) (s : ClientState σ) :
    (clientNextPhase1 now s).1 =
      { s with start_time := some (s.start_time.getD now), next_delay := none } := by
  obtain ⟨b, nd, r, st⟩ := s
  cases nd with
  | none => rfl
  | some p =>
      obtain ⟨w, d⟩ := p
      rfl

/-- A failed `Client::next` call in full: the backoff advances, `(now,
delay)` is stored, `retries` is bumped, and the error snapshot is built. -/
theorem clientNext_fail {σ ε : Type} (ops : BackoffOps σ) (now : Nat) (err : ε)
    (s : ClientState σ) :
    clientNext ops now (some err) s =
      (⟨(ops.next s.backoff).2, some (now, (ops.next s.backoff).1),
          (s.retries + 1) % U32MOD, some (s.start_time.getD now)⟩,
        Except.error ⟨(ops.next s.backoff).1, (s.retries + 1) % U32MOD,
          s.start_time.getD now, err⟩) := by
  rw [clientNext, clientNextPhase1_fst]
  rfl

/-- A successful `Client::next` call in full: the backoff is reset and all
three bookkeeping fields are cleared. -/
theorem clientNext_success {σ ε : Type} (ops : BackoffOps σ) (now : Nat)
    (s : ClientState σ) :
    clientNext (ε := ε) ops now none s =
      (⟨ops.reset s.backoff, none, 0, none⟩, Except.ok ()) := by
  rw [clientNext, clientNextPhase1_fst]
  rfl

/-!  ## Claims about Client -/

/-- Claim C9: `start_time` is `Some` at the failure branch's
`unwrap()`: `get_or_insert` populates it at the start of every call,
before the connect attempt, keeping any existing value. -/
theorem c9_start_time_populated {σ : Type} (now : Nat) (s : ClientState σ) :
    (clientNextPhase1 now s).1.start_time = some (s.start_time.getD now) := by
  rw [clientNextPhase1_fst]

/-- Claim C5: right after any successful `Client::next` call the pending
delay is cleared, `retries` is 0, the backoff has been reset and
`start_time` is `None`; the first failure after that populates all three
together and reports `retries = 1` with a start time newly recorded at
that failing call's instant. -/
theorem c5_success_clears_failure_populates {σ ε : Type} (ops : BackoffOps σ)
    (now now2 : Nat) (err : ε) (s : ClientState σ) :
    (clientNext (ε := ε) ops now none s).1.next_delay = none ∧
    (clientNext (ε := ε) ops now none s).1.retries = 0 ∧
    (clientNext (ε := ε) ops now none s).1.start_time = none ∧
    (clientNext (ε := ε) ops now none s).1.backoff = ops.reset s.backoff ∧
    (clientNext (ε := ε) ops now none s).2 = Except.ok () ∧
    clientNext ops now2 (some err) (clientNext (ε := ε) ops now none s).1 =
      (⟨(ops.next (ops.reset s.backoff)).2,
          some (now2, (ops.next (ops.reset s.backoff)).1), 1, some now2⟩,
        Except.error ⟨(ops.next (ops.reset s.backoff)).1, 1, now2, err⟩) := by
  rw [clientNext_success]
  refine ⟨rfl, rfl, rfl, rfl, rfl, ?_⟩
  rw [clientNext_fail]
  have h1 : (0 + 1) % U32MOD = 1 := by decide
  simp [h1]

/-- Counterexample to C3: with a pending delay of 100 from instant 0, a
`next()` call at instant 0 does suspend (remaining wait 100), yet the
state at the suspension point differs from the state before the call:
`next_delay` has already been taken (`take()` runs before the await), so
abandoning the call discards the pending delay. -/
theorem c3_counterexample :
    (clientNextPhase1 0 c3State).2 = some 100 ∧
    (clientNextPhase1 0 c3State).1 ≠ c3State ∧
    (clientNextPhase1 0 c3State).1.next_delay = none ∧
    c3State.next_delay = some (0, 100) := by decide

/-- Claim C3 (amended): if the caller abandons a `Client::next` call while
it is suspended in the backoff wait, `retries`, the backoff state and a
previously recorded `start_time` are exactly as they were before the call;
`next_delay`, however, has already been consumed (set to `None`) before the
suspension, so the pending delay is discarded rather than preserved. -/
theorem c3_cancellation_effects {σ : Type} (now : Nat) (s : ClientState σ)
    (hsus : (clientNextPhase1 now s).2.isSome = true) :
    (clientNextPhase1 now s).1.retries = s.retries ∧
    (clientNextPhase1 now s).1.backoff = s.backoff ∧
    (clientNextPhase1 now s).1.start_time = some (s.start_time.getD now) ∧
    (clientNextPhase1 now s).1.next_delay = none := by
  rw [clientNextPhase1_fst]
  exact ⟨rfl, rfl, rfl, rfl⟩

/-- Witness for C3 (amended) at the concrete suspended call of the
counterexample state. -/
theorem c3_witness :
    (clientNextPhase1 0 c3State).2.isSome = true ∧
      ((clientNextPhase1 0 c3State).1.retries = c3State.retries ∧
        (clientNextPhase1 0 c3State).1.backoff = c3State.backoff ∧
        (clientNextPhase1 0 c3State).1.start_time
            = some (c3State.start_time.getD 0) ∧
        (clientNextPhase1 0 c3State).1.next_delay = none) :=
  ⟨by decide, c3_cancellation_effects 0 c3State (by decide)⟩

/-- Closed form of the Client state after `k + 1` consecutive failures from
a fresh streak (`retries = 0`, `start_time = None`). -/
theorem failStreakState_closed {σ ε : Type} (ops : BackoffOps σ) (nows : Nat → Nat)
    (errs : Nat → ε) (s : ClientState σ) (hr : s.retries = 0)
    (hst : s.start_time = none) (k : Nat) :
    failStreakState ops nows errs s (k + 1) =
      ⟨ops.stateAfter s.backoff (k + 1), some (nows k, ops.output s.backoff k),
        (k + 1) % U32MOD, some (nows 0)⟩ := by
  induction k with
  | zero =>
      simp only [failStreakState]
      rw [clientNext_fail]
      simp [hr, hst, BackoffOps.stateAfter, BackoffOps.output]
  | succ k ih =>
      simp only [failStreakState] at ih ⊢
      rw [ih, clientNext_fail]
      simp [BackoffOps.stateAfter, BackoffOps.output, Nat.mod_add_mod]

/-- Claim C4 (amended): for every `n` with `1 ≤ n < 2^32`, after `n`
consecutive failed connect attempts with no intervening success (starting
from a fresh streak), the `n`-th `AttemptError` carries `retries = n`, the
streak's first call instant as `start_time` (identical across the whole
streak), the `n`-th backoff output of the streak as `next_attempt_in`, and
the `n`-th connect error. -/
theorem c4_failure_streak {σ ε : Type} (ops : BackoffOps σ) (nows : Nat → Nat)
    (errs : Nat → ε) (s : ClientState σ) (hr : s.retries = 0)
    (hst : s.start_time = none) (n : Nat) (h1 : 1 ≤ n) (h2 : n < U32MOD) :
    failStreakError ops nows errs s (n - 1) =
      Except.error ⟨ops.output s.backoff (n - 1), n, nows 0, errs (n - 1)⟩ := by
  obtain ⟨m, rfl⟩ : ∃ m, n = m + 1 := ⟨n - 1, by omega⟩
  simp only [Nat.add_sub_cancel]
  cases m with
  | zero =>
      simp only [failStreakError, failStreakState]
      rw [clientNext_fail]
      have hone : (0 + 1) % U32MOD = 1 := by decide
      simp [hr, hst, hone, BackoffOps.output, BackoffOps.stateAfter]
  | succ k =>
      simp only [failStreakError]
      rw [failStreakState_closed ops nows errs s hr hst k, clientNext_fail]
      have hmod : ((k + 1) % U32MOD + 1) % U32MOD = k + 1 + 1 := by
        rw [Nat.mod_add_mod]
        exact Nat.mod_eq_of_lt h2
      simp [hmod, BackoffOps.output, BackoffOps.stateAfter]

/-- Witness for C4 (amended): three failures on a fresh default Client give
a third error of exactly 200 ms delay, 3 retries, streak start 0. -/
theorem c4_witness :
    failStreakError dOps nows0 errs0 cs0 2 = Except.error ⟨200, 3, 0, 0⟩ :=
  (c4_failure_streak dOps nows0 errs0 cs0 rfl rfl 3 (by decide) (by decide)).trans rfl

/-- Counterexample to C4 as stated for every `n ≥ 1`: `retries` is a `u32`,
so on the `2^32`-th consecutive failure the counter has wrapped and the
returned `AttemptError` carries `retries = 0`, not `2^32`. -/
theorem c4_counterexample :
    retriesOf (failStreakError dOps nows0 errs0 cs0 (U32MOD - 1)) = some 0 ∧
      (0 : Nat) ≠ U32MOD := by
  have hM : U32MOD = 4294967296 := by norm_num [U32MOD]
  constructor
  · have hidx : U32MOD - 1 = U32MOD - 2 + 1 := by rw [hM]
    rw [hidx]
    simp only [failStreakError]
    rw [failStreakState_closed dOps nows0 errs0 cs0 rfl rfl (U32MOD - 2),
      clientNext_fail]
    simp only [retriesOf]
    rw [Nat.mod_add_mod, hM]
  · rw [hM]
    norm_num

/-!  ## Claims about the V2 codec -/

/-- Claim C1: for every buffered byte sequence given to `V2Codec::decode`
(header size `H = Header::SIZE ≥ 4`): with fewer than `H` bytes buffered it
returns need-more-data and consumes nothing; otherwise, with `L` the 3-byte
little-endian length field at offset 1, with fewer than `H + L` bytes it
returns need-more-data and consumes nothing, and with at least `H + L`
bytes it removes exactly `H + L` bytes from the front, hands that full
header+payload slice to the message parser, returns the parser's result,
and leaves the remaining bytes intact. -/
theorem c1_decode_framing {ε μ : Type} (H : Nat) (hH : 4 ≤ H)
    (parse : List Nat → Except ε μ) (buf : List Nat) :
    (buf.length < H → v2Decode H parse buf = (Except.ok none, buf)) ∧
    (H ≤ buf.length →
      (buf.length < H + v2LengthField buf →
        v2Decode H parse buf = (Except.ok none, buf)) ∧
      (H + v2LengthField buf ≤ buf.length →
        v2Decode H parse buf =
          ((parse (buf.take (H + v2LengthField buf))).map some,
            buf.drop (H + v2LengthField buf)))) := by
  refine ⟨fun h => ?_, fun hge => ⟨fun hlt => ?_, fun hge2 => ?_⟩⟩ <;>
    unfold v2Decode
  · rw [if_pos h]
  · rw [if_neg (by omega), if_pos hlt]
  · rw [if_neg (by omega), if_neg (by omega)]

/-- Witness for C1: an 8-byte buffer whose length field declares `L = 2`
under `H = 6` is decoded into one full 8-byte frame handed to the parser,
leaving an empty buffer. -/
theorem c1_witness :
    v2Decode 6 lenParse [9, 2, 0, 0, 7, 7, 10, 11] = (Except.ok (some 8), []) :=
  ((((c1_decode_framing 6 (by decide) lenParse
    [9, 2, 0, 0, 7, 7, 10, 11]).2 (by decide)).2) (by decide)).trans rfl

/-- Claim C8: `V2Codec::encode` appends the pre-built frame's bytes verbatim
to the output buffer — no reserialization, validation or capacity check —
and always returns `Ok`. -/
theorem c8_encode_verbatim {ε : Type} (item dst : List Nat) :
    (v2Encode (ε := ε) item dst).2 = dst ++ item ∧
    (v2Encode (ε := ε) item dst).1 = Except.ok () :=
  ⟨rfl, rfl⟩
